import Mathlib

/-!
# Verification of the scrubiq Detection & Findings Pipeline

A shallow embedding, in Lean 4, of the core of the scrubiq repository:

* the data model (`EntityType`, `Match`, `FileResult`, `ScanResult`) from
  `src/scrubiq/scanner/results.py`;
* the structural validators (`validate_ssn`, `luhn_check`), the regex
  patterns, and `RegexDetector.detect` from
  `src/scrubiq/classifier/detectors/regex.py`;
* the classification pipeline (`_deduplicate`, `_recommend_label`,
  `classify`) from `src/scrubiq/classifier/pipeline.py`;
* the `Encryptor` wrapper (`encrypt` / `decrypt`) from
  `src/scrubiq/storage/crypto.py` (the underlying third-party Fernet
  primitive is modelled abstractly);
* the audit behaviour of the `FindingsDatabase` operations from
  `src/scrubiq/storage/database.py`.

Python machine floats (`confidence`) are modelled as rationals; text is
modelled as Lean `String` / `List Char` (Python string indexing is by code
point, matching `List Char` indexing); Python's `re` module is modelled by a
small executable backtracking engine whose candidate order coincides with
Python's leftmost / first-alternative / greedy semantics for the pattern
constructs actually used by the repository.

The theorems at the end of the file settle the stated properties of the
specification against these definitions.
-/

namespace ScrubIQ

/-! ## Data model (`src/scrubiq/scanner/results.py`) -/

/-- `EntityType`: closed set of sensitive-data categories. -/
inductive EntityType where
  | SSN
  | NAME
  | EMAIL
  | PHONE
  | ADDRESS
  | DOB
  | MRN
  | HEALTH_PLAN_ID
  | DIAGNOSIS
  | MEDICATION
  | CREDIT_CARD
  | CVV
  | EXPIRATION
  | API_KEY
  | PASSWORD
  | PRIVATE_KEY
  deriving DecidableEq, Repr

/-- `Confidence`: confidence levels for matches. -/
inductive Confidence where
  | LOW
  | MEDIUM
  | HIGH
  | VERY_HIGH
  deriving DecidableEq, Repr

/-- `Confidence.from_score` (results.py lines 47-56). -/
def Confidence.from_score (score : ℚ) : Confidence :=
  if score ≥ mkRat 95 100 then .VERY_HIGH
  else if score ≥ mkRat 85 100 then .HIGH
  else if score ≥ mkRat 70 100 then .MEDIUM
  else .LOW

/-- `LabelRecommendation`: sensitivity label recommendations. -/
inductive LabelRecommendation where
  | PUBLIC
  | INTERNAL
  | CONFIDENTIAL
  | HIGHLY_CONFIDENTIAL
  deriving DecidableEq, Repr

/-- `Match`: a single detected sensitive data match (results.py lines 68-91).
`value` and `context` are code-point sequences (`List Char`), matching
Python string semantics; `confidence` is a rational standing for the float. -/
structure Match where
  entity_type : EntityType
  value : List Char
  start : Nat
  «end» : Nat
  confidence : ℚ
  detector : String
  context : List Char := []
  is_test_data : Bool := false
  model_version : Option String := none
  deriving DecidableEq, Repr

/-- `Match.confidence_level` (results.py lines 82-84). -/
def Match.confidence_level (m : Match) : Confidence :=
  Confidence.from_score m.confidence

/-- `Match.redacted_value` (results.py lines 86-91): value with middle
characters redacted. -/
def Match.redacted_value (m : Match) : List Char :=
  if m.value.length ≤ 4 then
    List.replicate m.value.length '*'
  else
    m.value.take 2 ++ List.replicate (m.value.length - 4) '*'
      ++ m.value.drop (m.value.length - 2)

/-- `FileResult`: results for a single scanned file (results.py lines 94-125).
Fields not used by these proofs (path, size, timestamps) are kept abstract
as plain data. -/
structure FileResult where
  path : String
  source : String
  size_bytes : Nat
  «matches» : List Match := []
  label_recommendation : Option LabelRecommendation := none
  current_label : Option String := none
  error : Option String := none
  scan_time_ms : Nat := 0
  deriving DecidableEq, Repr

/-- `FileResult.has_sensitive_data` (results.py lines 108-110). -/
def FileResult.has_sensitive_data (f : FileResult) : Bool :=
  f.«matches».length > 0 && !(f.«matches».all (fun m => m.is_test_data))

/-- `FileResult.real_matches` (results.py lines 122-125): matches excluding
test data. -/
def FileResult.real_matches (f : FileResult) : List Match :=
  f.«matches».filter (fun m => !m.is_test_data)

/-- `ScanResult`: complete results from a scan operation
(results.py lines 128-160). Timestamps are kept abstract as strings. -/
structure ScanResult where
  scan_id : String
  started_at : String
  completed_at : Option String := none
  source_path : String := ""
  source_type : String := ""
  files : List FileResult := []
  deriving DecidableEq, Repr

/-- `ScanResult.total_files` (results.py lines 140-142). -/
def ScanResult.total_files (s : ScanResult) : Nat :=
  s.files.length

/-- `ScanResult.files_with_matches` (results.py lines 144-146). -/
def ScanResult.files_with_matches (s : ScanResult) : Nat :=
  (s.files.filter (fun f => f.has_sensitive_data)).length

/-- `ScanResult.files_errored` (results.py lines 148-150). -/
def ScanResult.files_errored (s : ScanResult) : Nat :=
  (s.files.filter (fun f => f.error.isSome)).length

/-- `ScanResult.total_matches` (results.py lines 152-154):
`sum(len(f.real_matches) for f in self.files)`. -/
def ScanResult.total_matches (s : ScanResult) : Nat :=
  (s.files.map (fun f => f.real_matches.length)).sum

/-! ## Classification pipeline (`src/scrubiq/classifier/pipeline.py`) -/

/-- The order induced by the Python sort key
`lambda m: (m.start, -m.confidence)` (pipeline.py line 209):
lexicographic on start ascending, then confidence descending. -/
def dedupKeyLE (a b : Match) : Prop :=
  a.start < b.start ∨ (a.start = b.start ∧ b.confidence ≤ a.confidence)

instance : DecidableRel dedupKeyLE := fun a b => by
  unfold dedupKeyLE; infer_instance

instance : IsTotal Match dedupKeyLE where
  total a b := by
    rcases Nat.lt_trichotomy a.start b.start with h | h | h
    · exact Or.inl (Or.inl h)
    · rcases le_total a.confidence b.confidence with hq | hq
      · exact Or.inr (Or.inr ⟨h.symm, hq⟩)
      · exact Or.inl (Or.inr ⟨h, hq⟩)
    · exact Or.inr (Or.inl h)

instance : IsTrans Match dedupKeyLE where
  trans a b c hab hbc := by
    rcases hab with hab | ⟨hab, hab'⟩
    · rcases hbc with hbc | ⟨hbc, _⟩
      · exact Or.inl (hab.trans hbc)
      · exact Or.inl (hbc ▸ hab)
    · rcases hbc with hbc | ⟨hbc, hbc'⟩
      · exact Or.inl (hab ▸ hbc)
      · exact Or.inr ⟨hab.trans hbc, hbc'.trans hab'⟩

/-- The sweep of `ClassifierPipeline._deduplicate` (pipeline.py lines
211-222): walk the sorted candidates, keeping a candidate only when its
start is not strictly below `last_end`, and advancing `last_end` to the
kept candidate's end. `last_end` starts at `-1`, hence the `Int` type. -/
def dedupLoop : List Match → Int → List Match
  | [], _ => []
  | m :: rest, last_end =>
    if (m.start : Int) < last_end then dedupLoop rest last_end
    else m :: dedupLoop rest (m.«end» : Int)

/-- `ClassifierPipeline._deduplicate` (pipeline.py lines 197-222).
Python's `sorted` is a stable sort; a stable sort's output is uniquely
determined by the key, so the stable `List.insertionSort` denotes it
exactly. -/
def ClassifierPipeline.deduplicate (ms : List Match) : List Match :=
  if ms.isEmpty then []
  else dedupLoop (List.insertionSort dedupKeyLE ms) (-1)

/-- `HIGH_SENSITIVITY_TYPES` (pipeline.py lines 23-30). -/
def HIGH_SENSITIVITY_TYPES : List EntityType :=
  [.SSN, .CREDIT_CARD, .MRN, .HEALTH_PLAN_ID, .CVV, .PRIVATE_KEY]

/-- Python's `max` over a nonempty sequence of rationals (the `[]` case is
unreachable in the translated code, which guards against empty input). -/
def pyMax : List ℚ → ℚ
  | [] => 0
  | [a] => a
  | a :: b :: rest => max a (pyMax (b :: rest))

/-- `ClassifierPipeline._recommend_label` (pipeline.py lines 224-254). -/
def ClassifierPipeline.recommend_label (ms : List Match) :
    Option LabelRecommendation :=
  if ms.isEmpty then none
  else
    let real_matches := ms.filter (fun m => !m.is_test_data)
    if real_matches.isEmpty then none
    else
      let has_high_sensitivity :=
        real_matches.any (fun m => HIGH_SENSITIVITY_TYPES.contains m.entity_type)
      let max_confidence := pyMax (real_matches.map (fun m => m.confidence))
      if has_high_sensitivity && decide (max_confidence ≥ mkRat 85 100) then
        some .HIGHLY_CONFIDENTIAL
      else if has_high_sensitivity then
        some .CONFIDENTIAL
      else if max_confidence ≥ mkRat 70 100 then
        some .INTERNAL
      else
        some .PUBLIC

/-! ## Structural validators (`src/scrubiq/classifier/detectors/regex.py`) -/

/-- The digit characters of a string, as numeric values: models
`re.sub(r"[^\d]", "", value)` followed by per-segment `int` conversion
(`\d` is modelled as the ASCII digits, the only digits the repository's
patterns can feed it). -/
def pyDigits (value : String) : List Nat :=
  (value.data.filter Char.isDigit).map (fun c => c.toNat - 48)

/-- Value of a digit string (decimal, leading zeros allowed), models
Python `int` on a digit substring. -/
def digitsVal (l : List Nat) : Nat :=
  l.foldl (fun acc d => 10 * acc + d) 0

/-- `validate_ssn` (regex.py lines 27-56). -/
def validate_ssn (value : String) : Bool :=
  let digits := pyDigits value
  if digits.length ≠ 9 then false
  else
    let area := digitsVal (digits.take 3)
    let group := digitsVal ((digits.drop 3).take 2)
    let serial := digitsVal (digits.drop 5)
    if area = 0 || area = 666 || area ≥ 900 then false
    else if group = 0 then false
    else if serial = 0 then false
    else true

/-- Every other element of a list, starting with the first: models the
Python slices `digits[-1::-2]` / `digits[-2::-2]` applied to the reversed
list (resp. the reversed list without its head). -/
def everyOther : List Nat → List Nat
  | [] => []
  | [a] => [a]
  | a :: _ :: rest => a :: everyOther rest

/-- `luhn_check` (regex.py lines 59-78). -/
def luhn_check (value : String) : Bool :=
  let digits := pyDigits value
  if digits.length < 13 || digits.length > 19 then false
  else
    let odd_digits := everyOther digits.reverse
    let even_digits := everyOther (digits.reverse.drop 1)
    let checksum :=
      odd_digits.sum + (even_digits.map (fun d => d * 2 / 10 + d * 2 % 10)).sum
    checksum % 10 = 0

/-! ## Test-data normalization (`regex.py` lines 254-264) -/

/-- Python's `\s` class, restricted to ASCII (the only whitespace the
repository's inputs contain). -/
def isPySpace (c : Char) : Bool :=
  c = ' ' || c = '\t' || c = '\n' || c = '\x0b' || c = '\x0c' || c = '\r'

/-- The separator characters stripped by `_is_test_data`'s normalization:
the regex class `[-.\s()]`. -/
def isSeparatorChar (c : Char) : Bool :=
  c = '-' || c = '.' || isPySpace c || c = '(' || c = ')'

/-- The normalization `re.sub(r"[-.\s()]", "", value.lower())` of
`RegexDetector._is_test_data`. -/
def normalizeTestValue (value : List Char) : List Char :=
  (value.map Char.toLower).filter (fun c => !isSeparatorChar c)

/-- `RegexDetector._is_test_data` (regex.py lines 254-264). -/
def RegexDetector.is_test_data (value : List Char)
    (test_patterns : List (List Char)) : Bool :=
  test_patterns.any (fun t => normalizeTestValue value = normalizeTestValue t)

/-! ## A small regex engine

Python's `re` module is modelled by an executable backtracking engine over
the constructs the repository's four patterns use: character classes,
concatenation, ordered alternation, greedy `?`, exact repetition `{n}`,
greedy `+` and `{2,}` over a character class, negative lookahead `(?!...)`
and the word boundary `\b`.  `Rx.matchEnds` enumerates the end offsets of
the complete parses starting at a position, in exactly Python's
backtracking preference order (first alternative first, greedy quantifiers
longest first), so its head is the match Python reports. -/

/-- Python's word character `\w`, restricted to ASCII. -/
def isWordChar (c : Char) : Bool :=
  c.isAlpha || c.isDigit || c = '_'

/-- Is position `pos` of `text` a `\b` word boundary? -/
def atWordBoundary (text : List Char) (pos : Nat) : Bool :=
  let wordAt : Nat → Bool := fun i => (text.get? i).any isWordChar
  (decide (0 < pos) && wordAt (pos - 1)) != wordAt pos

/-- Regex syntax. -/
inductive Rx where
  | eps
  | cls (p : Char → Bool)
  | seq (a b : Rx)
  | alt (a b : Rx)
  | opt (a : Rx)
  | plusCls (p : Char → Bool)
  | min2Cls (p : Char → Bool)
  | nla (a : Rx)
  | wb

/-- Length of the maximal run of characters satisfying `p` at `pos`. -/
def runLength (p : Char → Bool) (text : List Char) (pos : Nat) : Nat :=
  ((text.drop pos).takeWhile p).length

/-- End offsets of the complete parses of `r` starting at `pos`, in
backtracking preference order. -/
def Rx.matchEnds : Rx → List Char → Nat → List Nat
  | .eps, _, pos => [pos]
  | .cls p, text, pos =>
    match text.get? pos with
    | some c => if p c then [pos + 1] else []
    | none => []
  | .seq a b, text, pos =>
    (a.matchEnds text pos).flatMap (fun e => b.matchEnds text e)
  | .alt a b, text, pos => a.matchEnds text pos ++ b.matchEnds text pos
  | .opt a, text, pos => a.matchEnds text pos ++ [pos]
  | .plusCls p, text, pos =>
    let k := runLength p text pos
    (List.range k).map (fun i => pos + k - i)
  | .min2Cls p, text, pos =>
    let k := runLength p text pos
    if k < 2 then [] else (List.range (k - 1)).map (fun i => pos + k - i)
  | .nla a, text, pos => if (a.matchEnds text pos).isEmpty then [pos] else []
  | .wb, text, pos => if atWordBoundary text pos then [pos] else []

/-- Single literal character. -/
def Rx.chr (c : Char) : Rx := .cls (fun x => x = c)

/-- Literal string. -/
def Rx.str (s : String) : Rx :=
  s.data.foldr (fun c acc => Rx.seq (Rx.chr c) acc) Rx.eps

/-- Exact repetition `r{n}`. -/
def Rx.rep (a : Rx) : Nat → Rx
  | 0 => .eps
  | n + 1 => .seq a (Rx.rep a n)

/-- The end of the match of `r` at `pos` that Python reports, if any. -/
def Rx.firstMatchEnd (r : Rx) (text : List Char) (pos : Nat) : Option Nat :=
  (r.matchEnds text pos).head?

/-- One step of `re.finditer`: scan left to right, yield each
non-overlapping match, resuming after its end. -/
def finditerAux (r : Rx) (text : List Char) : Nat → Nat → List (Nat × Nat)
  | 0, _ => []
  | fuel + 1, pos =>
    if pos > text.length then []
    else
      match r.firstMatchEnd text pos with
      | some e => (pos, e) :: finditerAux r text fuel (max e (pos + 1))
      | none => finditerAux r text fuel (pos + 1)

/-- `re.finditer`: the (start, end) spans of the non-overlapping matches of
`r` in `text`, left to right. -/
def finditer (r : Rx) (text : List Char) : List (Nat × Nat) :=
  finditerAux r text (text.length + 2) 0

/-! ## Pattern definitions (`regex.py` lines 85-184) -/

/-- Character in an inclusive range. -/
def inRange (lo hi c : Char) : Bool := lo ≤ c && c ≤ hi

/-- The class `[-\s]` used by the SSN pattern's separators. -/
def ssnSepChar (c : Char) : Bool := c = '-' || isPySpace c

/-- The class `[-.\s]` used by the phone pattern's separators. -/
def phoneSepChar (c : Char) : Bool := c = '-' || c = '.' || isPySpace c

/-- `SSN_PATTERN`'s regex (regex.py lines 88-97). -/
def SSN_RX : Rx :=
  .seq .wb
  (.seq (.nla (.alt (Rx.str "000")
         (.alt (Rx.str "666")
               (.seq (Rx.chr '9') (Rx.rep (.cls Char.isDigit) 2)))))
  (.seq (.alt (.seq (.cls (inRange '0' '8')) (Rx.rep (.cls Char.isDigit) 2))
              (.seq (Rx.chr '7')
                    (.alt (.seq (.cls (inRange '0' '6')) (.cls Char.isDigit))
                          (.seq (Rx.chr '7')
                                (.cls (fun c => c = '0' || c = '1' || c = '2'))))))
  (.seq (.opt (.cls ssnSepChar))
  (.seq (.nla (Rx.str "00"))
  (.seq (Rx.rep (.cls Char.isDigit) 2)
  (.seq (.opt (.cls ssnSepChar))
  (.seq (.nla (Rx.str "0000"))
  (.seq (Rx.rep (.cls Char.isDigit) 4) .wb))))))))

/-- `CREDIT_CARD_PATTERN`'s regex (regex.py lines 117-125). -/
def CREDIT_CARD_RX : Rx :=
  .seq .wb
  (.seq
    (.alt (.seq (Rx.chr '4')
                (.seq (Rx.rep (.cls Char.isDigit) 12)
                      (.opt (Rx.rep (.cls Char.isDigit) 3))))
    (.alt (.seq (Rx.chr '5')
                (.seq (.cls (inRange '1' '5')) (Rx.rep (.cls Char.isDigit) 14)))
    (.alt (.seq (Rx.chr '3')
                (.seq (.cls (fun c => c = '4' || c = '7'))
                      (Rx.rep (.cls Char.isDigit) 13)))
    (.alt (.seq (Rx.chr '6')
                (.seq (.alt (Rx.str "011")
                            (.seq (Rx.chr '5') (Rx.rep (.cls Char.isDigit) 2)))
                      (Rx.rep (.cls Char.isDigit) 12)))
          (.seq (Rx.chr '3')
                (.seq (.alt (.seq (Rx.chr '0') (.cls (inRange '0' '5')))
                            (.seq (.cls (fun c => c = '6' || c = '8'))
                                  (.cls Char.isDigit)))
                      (Rx.rep (.cls Char.isDigit) 11)))))))
    .wb)

/-- The class `[A-Za-z0-9._%+-]` of the email pattern's local part. -/
def emailLocalChar (c : Char) : Bool :=
  c.isAlpha || c.isDigit || c = '.' || c = '_' || c = '%' || c = '+' || c = '-'

/-- The class `[A-Za-z0-9.-]` of the email pattern's domain part. -/
def emailDomainChar (c : Char) : Bool :=
  c.isAlpha || c.isDigit || c = '.' || c = '-'

/-- The class `[A-Z|a-z]` of the email pattern's top-level domain (the
source's literal `|` inside the class is kept). -/
def emailTldChar (c : Char) : Bool := c.isAlpha || c = '|'

/-- `EMAIL_PATTERN`'s regex (regex.py line 142). -/
def EMAIL_RX : Rx :=
  .seq .wb
  (.seq (.plusCls emailLocalChar)
  (.seq (Rx.chr '@')
  (.seq (.plusCls emailDomainChar)
  (.seq (Rx.chr '.')
  (.seq (.min2Cls emailTldChar) .wb)))))

/-- `PHONE_PATTERN`'s regex (regex.py lines 159-166). -/
def PHONE_RX : Rx :=
  .seq .wb
  (.seq (.opt (.seq (Rx.chr '+') (.seq (Rx.chr '1') (.opt (.cls phoneSepChar)))))
  (.seq (.opt (Rx.chr '('))
  (.seq (Rx.rep (.cls Char.isDigit) 3)
  (.seq (.opt (Rx.chr ')'))
  (.seq (.opt (.cls phoneSepChar))
  (.seq (Rx.rep (.cls Char.isDigit) 3)
  (.seq (.opt (.cls phoneSepChar))
  (.seq (Rx.rep (.cls Char.isDigit) 4) .wb))))))))

/-- `Pattern`: a detection pattern with metadata (regex.py lines 10-19). -/
structure Pattern where
  name : String
  entity_type : EntityType
  regex : Rx
  confidence_base : ℚ
  validator : Option (String → Bool) := none
  test_patterns : List String := []

/-- `SSN_PATTERN` (regex.py lines 85-112). -/
def SSN_PATTERN : Pattern where
  name := "us_ssn"
  entity_type := .SSN
  regex := SSN_RX
  confidence_base := mkRat 75 100
  validator := some validate_ssn
  test_patterns :=
    ["123-45-6789", "000-00-0000", "111-11-1111", "222-22-2222",
     "333-33-3333", "444-44-4444", "555-55-5555", "999-99-9999",
     "123-12-1234", "987-65-4321"]

/-- `CREDIT_CARD_PATTERN` (regex.py lines 114-137). -/
def CREDIT_CARD_PATTERN : Pattern where
  name := "credit_card"
  entity_type := .CREDIT_CARD
  regex := CREDIT_CARD_RX
  confidence_base := mkRat 70 100
  validator := some luhn_check
  test_patterns :=
    ["4111111111111111", "4111-1111-1111-1111", "5500000000000004",
     "340000000000009", "4242424242424242", "5555555555554444",
     "378282246310005"]

/-- `EMAIL_PATTERN` (regex.py lines 139-154). -/
def EMAIL_PATTERN : Pattern where
  name := "email"
  entity_type := .EMAIL
  regex := EMAIL_RX
  confidence_base := mkRat 90 100
  test_patterns :=
    ["test@example.com", "test@example.org", "user@test.com",
     "noreply@example.com", "no-reply@example.com", "admin@localhost",
     "foo@bar.test", "example@example.com"]

/-- `PHONE_PATTERN` (regex.py lines 156-176). -/
def PHONE_PATTERN : Pattern where
  name := "us_phone"
  entity_type := .PHONE
  regex := PHONE_RX
  confidence_base := mkRat 65 100
  test_patterns :=
    ["555-555-5555", "555-123-4567", "(555) 555-5555", "555.555.5555",
     "123-456-7890", "000-000-0000"]

/-- `ALL_PATTERNS` (regex.py lines 179-184). -/
def ALL_PATTERNS : List Pattern :=
  [SSN_PATTERN, CREDIT_CARD_PATTERN, EMAIL_PATTERN, PHONE_PATTERN]

/-- `RegexDetector.detect` (regex.py lines 211-252). -/
def RegexDetector.detect (text : String) : List Match :=
  ALL_PATTERNS.flatMap (fun pattern =>
    (finditer pattern.regex text.data).filterMap (fun se =>
      let value := (text.data.drop se.1).take (se.2 - se.1)
      let validatorOk :=
        match pattern.validator with
        | some v => v (String.mk value)
        | none => true
      if validatorOk then
        let is_test :=
          RegexDetector.is_test_data value (pattern.test_patterns.map String.data)
        let context := (text.data.take (min text.length (se.2 + 50))).drop (se.1 - 50)
        some { entity_type := pattern.entity_type
               value := value
               start := se.1
               «end» := se.2
               confidence := pattern.confidence_base
               detector := "regex"
               context := context
               is_test_data := is_test }
      else none))

/-- `ClassificationResult` (pipeline.py lines 33-48). -/
structure ClassificationResult where
  «matches» : List Match
  label_recommendation : Option LabelRecommendation
  deriving DecidableEq, Repr

/-- `ClassifierPipeline.classify` (pipeline.py lines 125-164), with the two
optional layers (Presidio NER, TP/FP filter) not configured — both are
external, optional collaborators and default to absent. -/
def ClassifierPipeline.classify (text : String) : ClassificationResult :=
  let all_matches := RegexDetector.detect text
  let ms := ClassifierPipeline.deduplicate all_matches
  { «matches» := ms
    label_recommendation := ClassifierPipeline.recommend_label ms }

/-! ## Encryption (`src/scrubiq/storage/crypto.py`)

`Encryptor.encrypt` / `Encryptor.decrypt` wrap the third-party
`cryptography.fernet` primitive (not part of this repository), composed
with UTF-8 and url-safe base64 codecs, which are injective and inverse on
their ranges.  The wrapper's own logic — the empty-string shortcuts on
lines 136-137 and 148-149 of crypto.py — is translated exactly. -/

/-- Modelled from the spec: a Fernet authenticated-encryption token.  The
`cryptography.fernet` implementation is missing from the repository; per
the spec, decryption of a token "with a different key raises an encryption
error", so a token is modelled as recording the key it was produced under
together with the protected plaintext. -/
structure FernetToken where
  key : Nat
  plaintext : String
  deriving DecidableEq, Repr

/-- The `cryptography.fernet.InvalidToken` error. -/
inductive CryptoError where
  | invalidToken
  deriving DecidableEq, Repr

/-- Modelled from the spec: `Fernet(key).encrypt` (missing third-party
code) — produce a token recoverable exactly under `key`. -/
def fernetEncrypt (key : Nat) (pt : String) : FernetToken := ⟨key, pt⟩

/-- Modelled from the spec: `Fernet(key).decrypt` (missing third-party
code) — authenticate and recover the plaintext; with a different key it
raises `InvalidToken`, never returning a wrong plaintext. -/
def fernetDecrypt (key : Nat) (t : FernetToken) : Except CryptoError String :=
  if t.key = key then .ok t.plaintext else .error .invalidToken

/-- The string returned by `Encryptor.encrypt`: either the empty string
(for empty plaintext, crypto.py lines 136-137) or the base64 encoding of a
Fernet token (always nonempty). -/
inductive Ciphertext where
  | empty
  | token (t : FernetToken)
  deriving DecidableEq, Repr

/-- `Encryptor.encrypt` (crypto.py lines 130-140). -/
def Encryptor.encrypt (key : Nat) (plaintext : String) : Ciphertext :=
  if plaintext = "" then .empty
  else .token (fernetEncrypt key plaintext)

/-- `Encryptor.decrypt` (crypto.py lines 142-153): empty ciphertext is
returned as the empty string without touching the cipher; otherwise the
Fernet layer authenticates the token. -/
def Encryptor.decrypt (key : Nat) (ciphertext : Ciphertext) :
    Except CryptoError String :=
  match ciphertext with
  | .empty => .ok ""
  | .token t => fernetDecrypt key t

/-! ## Findings store (`src/scrubiq/storage/database.py`)

The SQLite store is modelled as three row lists plus the audit log (a list
of appended entries, `src/scrubiq/storage/audit.py`).  Row fields not read
by any claim (timestamps, sizes, users, detector names) are carried as
plain data or omitted; every `self.audit.log(...)` call in database.py is
translated as exactly one appended `AuditEntry`. -/

/-- `EntityType` enum values (results.py lines 11-36), as persisted. -/
def EntityType.value : EntityType → String
  | .SSN => "ssn"
  | .NAME => "name"
  | .EMAIL => "email"
  | .PHONE => "phone"
  | .ADDRESS => "address"
  | .DOB => "date_of_birth"
  | .MRN => "medical_record_number"
  | .HEALTH_PLAN_ID => "health_plan_id"
  | .DIAGNOSIS => "diagnosis"
  | .MEDICATION => "medication"
  | .CREDIT_CARD => "credit_card"
  | .CVV => "cvv"
  | .EXPIRATION => "expiration_date"
  | .API_KEY => "api_key"
  | .PASSWORD => "password"
  | .PRIVATE_KEY => "private_key"

/-- `LabelRecommendation` enum values (results.py lines 59-65). -/
def LabelRecommendation.value : LabelRecommendation → String
  | .PUBLIC => "public"
  | .INTERNAL => "internal"
  | .CONFIDENTIAL => "confidential"
  | .HIGHLY_CONFIDENTIAL => "highly_confidential"

/-- One audit log entry (audit.py lines 44-55); timestamp and user are not
inspected by any claim and are omitted. -/
structure AuditEntry where
  action : String
  record_count : Nat := 0
  scan_id : Option String := none
  deriving DecidableEq, Repr

/-- A row of the `scans` table (database.py lines 81-96). -/
structure ScanRow where
  scan_id : String
  started_at : String
  total_files : Nat
  files_with_matches : Nat
  files_errored : Nat
  total_matches : Nat
  deriving DecidableEq, Repr

/-- A row of the `files` table (database.py lines 99-115). -/
structure FileRow where
  id : Nat
  scan_id : String
  path : String
  source : String
  has_sensitive_data : Bool
  label_recommendation : Option String
  error : Option String
  deriving DecidableEq, Repr

/-- A row of the `matches` table (database.py lines 119-140). -/
structure MatchRow where
  file_id : Nat
  scan_id : String
  entity_type : String
  value_encrypted : Ciphertext
  value_redacted : List Char
  start_pos : Nat
  end_pos : Nat
  confidence : ℚ
  is_test_data : Bool
  deriving DecidableEq, Repr

/-- The `FindingsDatabase` state: the three tables, the append-only audit
log, the encryptor's key, and the `files` AUTOINCREMENT counter. -/
structure FindingsDatabase where
  scans : List ScanRow := []
  files : List FileRow := []
  «matches» : List MatchRow := []
  audit : List AuditEntry := []
  key : Nat := 0
  file_seq : Nat := 0
  deriving DecidableEq, Repr

/-- `FindingsDatabase.store_scan` (database.py lines 150-256): insert the
scan row, then per file a file row and its match rows (sensitive fields
encrypted), then append one audit entry whose `record_count` is the number
of match rows inserted. -/
def FindingsDatabase.store_scan (db : FindingsDatabase) (s : ScanResult) :
    String × FindingsDatabase :=
  let scanRow : ScanRow :=
    { scan_id := s.scan_id
      started_at := s.started_at
      total_files := s.total_files
      files_with_matches := s.files_with_matches
      files_errored := s.files_errored
      total_matches := s.total_matches }
  let step := fun (acc : List FileRow × List MatchRow × Nat × Nat) (f : FileResult) =>
    let fid := acc.2.2.1 + 1
    let frow : FileRow :=
      { id := fid
        scan_id := s.scan_id
        path := f.path
        source := f.source
        has_sensitive_data := f.has_sensitive_data
        label_recommendation := f.label_recommendation.map (fun l => l.value)
        error := f.error }
    let newRows := f.«matches».map (fun m =>
      { file_id := fid
        scan_id := s.scan_id
        entity_type := m.entity_type.value
        value_encrypted := Encryptor.encrypt db.key (String.mk m.value)
        value_redacted := m.redacted_value
        start_pos := m.start
        end_pos := m.«end»
        confidence := m.confidence
        is_test_data := m.is_test_data : MatchRow })
    (acc.1 ++ [frow], acc.2.1 ++ newRows, fid, acc.2.2.2 + newRows.length)
  let inserted := s.files.foldl step ([], [], db.file_seq, 0)
  (s.scan_id,
   { db with
     scans := db.scans ++ [scanRow]
     files := db.files ++ inserted.1
     «matches» := db.«matches» ++ inserted.2.1
     file_seq := inserted.2.2.1
     audit := db.audit ++
       [{ action := "finding_store"
          record_count := inserted.2.2.2
          scan_id := some s.scan_id }] })

/-- `FindingsDatabase.get_scan` (database.py lines 258-273): look the scan
up; when absent return `None` with no audit entry; when present append one
`finding_read` entry, whose `record_count` is left at its default `0`. -/
def FindingsDatabase.get_scan (db : FindingsDatabase) (scan_id : String) :
    Option ScanRow × FindingsDatabase :=
  match db.scans.find? (fun s => s.scan_id == scan_id) with
  | none => (none, db)
  | some row =>
    (some row,
     { db with audit := db.audit ++
         [{ action := "finding_read", record_count := 0, scan_id := some scan_id }] })

/-- Descending order on `started_at` (the `ORDER BY started_at DESC` of
list_scans; SQLite orders TEXT bytewise, matching `String` order on the
ASCII timestamps involved). -/
def scanRowGE (a b : ScanRow) : Prop := b.started_at ≤ a.started_at

instance : DecidableRel scanRowGE := fun a b => by
  unfold scanRowGE; infer_instance

/-- `FindingsDatabase.list_scans` (database.py lines 275-287): return up to
`limit` scans, most recent first.  The Python body contains no
`self.audit.log` call, so the state is returned unchanged. -/
def FindingsDatabase.list_scans (db : FindingsDatabase) (limit : Nat) :
    List ScanRow × FindingsDatabase :=
  ((List.insertionSort scanRowGE db.scans).take limit, db)

/-- Ascending order on `path` (the `ORDER BY path` of get_files). -/
def fileRowLE (a b : FileRow) : Prop := a.path ≤ b.path

instance : DecidableRel fileRowLE := fun a b => by
  unfold fileRowLE; infer_instance

/-- `FindingsDatabase.get_files` (database.py lines 289-323): the file rows
of a scan, optionally restricted to those with sensitive data, ordered by
path.  No `self.audit.log` call in the Python body. -/
def FindingsDatabase.get_files (db : FindingsDatabase) (scan_id : String)
    (only_with_matches : Bool := false) : List FileRow × FindingsDatabase :=
  (List.insertionSort fileRowLE
     (db.files.filter (fun f =>
       f.scan_id == scan_id && (!only_with_matches || f.has_sensitive_data))),
   db)

/-- `FindingsDatabase.get_findings` (database.py lines 325-402): the match
rows passing the filters, each joined to its file row, with one
`finding_read` audit entry whose `record_count` is the number of rows
yielded (the Python generator logs after full iteration; the model assumes
the iterator is consumed).  The per-row dict post-processing (decryption /
removal of encrypted fields) affects neither the row count nor the audit
entry and is not modelled. -/
def FindingsDatabase.get_findings (db : FindingsDatabase)
    (scan_id : Option String := none) (entity_type : Option String := none)
    (min_confidence : ℚ := 0) (include_test_data : Bool := false) :
    List (MatchRow × FileRow) × FindingsDatabase :=
  let rows := db.«matches».filterMap (fun m =>
    if min_confidence ≤ m.confidence
        && (match scan_id with | some sid => m.scan_id == sid | none => true)
        && (match entity_type with | some et => m.entity_type == et | none => true)
        && (include_test_data || !m.is_test_data) then
      (db.files.find? (fun f => f.id == m.file_id)).map (fun f => (m, f))
    else none)
  (rows,
   { db with audit := db.audit ++
       [{ action := "finding_read", record_count := rows.length, scan_id := scan_id }] })

/-- `FindingsDatabase.get_findings_by_file` (database.py lines 404-432):
all match rows joined to file rows with the given path.  The Python body
contains no `self.audit.log` call, so the state is returned unchanged. -/
def FindingsDatabase.get_findings_by_file (db : FindingsDatabase)
    (file_path : String) : List (MatchRow × FileRow) × FindingsDatabase :=
  (db.«matches».filterMap (fun m =>
     (db.files.find? (fun f => f.id == m.file_id && f.path == file_path)).map
       (fun f => (m, f))),
   db)

/-- `FindingsDatabase.delete_scan` (database.py lines 434-460): count the
scan's matches, delete matches then files then the scan row, append one
`finding_delete` entry carrying that count, and return the count. -/
def FindingsDatabase.delete_scan (db : FindingsDatabase) (scan_id : String) :
    Nat × FindingsDatabase :=
  let match_count := (db.«matches».filter (fun m => m.scan_id == scan_id)).length
  (match_count,
   { db with
     «matches» := db.«matches».filter (fun m => !(m.scan_id == scan_id))
     files := db.files.filter (fun f => !(f.scan_id == scan_id))
     scans := db.scans.filter (fun s => !(s.scan_id == scan_id))
     audit := db.audit ++
       [{ action := "finding_delete"
          record_count := match_count
          scan_id := some scan_id }] })

/-- `FindingsDatabase.purge_all` (database.py lines 462-485): count all
matches, clear the three tables, append one `finding_delete` entry. -/
def FindingsDatabase.purge_all (db : FindingsDatabase) :
    Nat × FindingsDatabase :=
  let total_matches := db.«matches».length
  (total_matches,
   { db with
     «matches» := []
     files := []
     scans := []
     audit := db.audit ++
       [{ action := "finding_delete", record_count := total_matches }] })

/-! ## Properties of the deduplication sweep -/

/-- Two matches overlap when their half-open `[start, end)` ranges have a
common position. -/
def overlaps (a b : Match) : Prop :=
  max a.start b.start < min a.«end» b.«end»

instance : ∀ a b, Decidable (overlaps a b) := fun a b => by
  unfold overlaps; infer_instance

theorem overlaps_symm {a b : Match} (h : overlaps a b) : overlaps b a := by
  unfold overlaps at h ⊢; omega

/-- The sweep only ever keeps candidates, in order. -/
theorem dedupLoop_sublist : ∀ (l : List Match) (e : Int), (dedupLoop l e).Sublist l
  | [], _ => .slnil
  | m :: rest, e => by
    unfold dedupLoop
    split
    · exact (dedupLoop_sublist rest e).cons m
    · exact (dedupLoop_sublist rest (m.«end» : Int)).cons₂ m

/-- On a start-sorted candidate list, every kept match starts at or after
the sweep's incoming boundary. -/
theorem dedupLoop_start_ge :
    ∀ {l : List Match}, l.Pairwise (fun a b => a.start ≤ b.start) →
      ∀ {e : Int} {b : Match}, b ∈ dedupLoop l e → e ≤ (b.start : Int) := by
  intro l
  induction l with
  | nil => intro _ e b hb; simp [dedupLoop] at hb
  | cons m rest ih =>
    intro hs e b hb
    rw [List.pairwise_cons] at hs
    unfold dedupLoop at hb
    split at hb
    · exact ih hs.2 hb
    · rename_i hkeep
      rcases List.mem_cons.mp hb with rfl | hb'
      · omega
      · have hmb : m.start ≤ b.start :=
          hs.1 b ((dedupLoop_sublist rest (m.«end» : Int)).subset hb')
        omega

/-- On a start-sorted candidate list, the kept matches are pairwise
non-overlapping. -/
theorem dedupLoop_pairwise :
    ∀ {l : List Match}, l.Pairwise (fun a b => a.start ≤ b.start) →
      ∀ (e : Int), (dedupLoop l e).Pairwise (fun a b => ¬ overlaps a b) := by
  intro l
  induction l with
  | nil => intro _ e; simp [dedupLoop]
  | cons m rest ih =>
    intro hs e
    rw [List.pairwise_cons] at hs
    unfold dedupLoop
    split
    · exact ih hs.2 e
    · refine List.Pairwise.cons (fun b hb => ?_) (ih hs.2 (m.«end» : Int))
      have hge := dedupLoop_start_ge hs.2 hb
      unfold overlaps
      omega

/-- The sort key order implies the start order. -/
theorem dedupKeyLE_start_le {a b : Match} (h : dedupKeyLE a b) :
    a.start ≤ b.start := by
  rcases h with h | ⟨h, _⟩
  · exact Nat.le_of_lt h
  · exact Nat.le_of_eq h

/-- The output of `_deduplicate` is always pairwise non-overlapping. -/
theorem dedup_pairwise (ms : List Match) :
    (ClassifierPipeline.deduplicate ms).Pairwise (fun a b => ¬ overlaps a b) := by
  unfold ClassifierPipeline.deduplicate
  split
  · exact List.Pairwise.nil
  · exact dedupLoop_pairwise
      ((List.sorted_insertionSort dedupKeyLE ms).imp dedupKeyLE_start_le) (-1)

/-- If a kept candidate has an equal-start, strictly better-confidence
competitor anywhere in the (key-sorted) candidate list, that competitor is
kept as well. -/
theorem dedupLoop_mem_better :
    ∀ {l : List Match}, l.Pairwise dedupKeyLE →
      ∀ {e : Int} {a b : Match}, a ∈ l → b ∈ dedupLoop l e →
        a.start = b.start → b.confidence < a.confidence →
        a ∈ dedupLoop l e := by
  intro l
  induction l with
  | nil => intro _ e a b ha _ _ _; exact absurd ha (List.not_mem_nil a)
  | cons m rest ih =>
    intro hs e a b ha hb hstart hconf
    rw [List.pairwise_cons] at hs
    have hrest' : rest.Pairwise (fun a b => a.start ≤ b.start) :=
      hs.2.imp dedupKeyLE_start_le
    unfold dedupLoop at hb ⊢
    split at hb
    · rename_i hskip
      rcases List.mem_cons.mp ha with rfl | ha'
      · have := dedupLoop_start_ge hrest' hb
        omega
      · rw [if_pos (by assumption)]
        exact ih hs.2 ha' hb hstart hconf
    · rename_i hkeep
      rw [if_neg (by assumption)]
      rcases List.mem_cons.mp hb with rfl | hb'
      · rcases List.mem_cons.mp ha with rfl | ha'
        · exact absurd hconf (lt_irrefl _)
        · rcases hs.1 a ha' with hlt | ⟨_, hle⟩
          · omega
          · exact absurd (lt_of_lt_of_le hconf hle) (lt_irrefl _)
      · rcases List.mem_cons.mp ha with rfl | ha'
        · exact List.mem_cons_self a _
        · exact List.mem_cons_of_mem m (ih hs.2 ha' hb' hstart hconf)

/-- Two matches kept by `_deduplicate` that overlap are the same match. -/
theorem dedup_at_most_one_of_overlap {ms : List Match} {a b : Match}
    (ha : a ∈ ClassifierPipeline.deduplicate ms)
    (hb : b ∈ ClassifierPipeline.deduplicate ms)
    (hov : overlaps a b) : a = b := by
  by_contra hne
  have hsym : Symmetric (fun x y : Match => ¬ overlaps x y) := by
    intro x y h hyx
    exact h (overlaps_symm hyx)
  exact (dedup_pairwise ms).forall hsym ha hb hne hov

/-! ## Claim theorems: deduplication (C1, C2) -/

/-- C1. For every input text and every combined candidate list, the match
list returned by `ClassifierPipeline.classify` (i.e. the output of the
deduplication step `_deduplicate`) contains no two matches whose half-open
`[start, end)` ranges overlap. -/
theorem dedup_output_pairwise_nonoverlapping :
    (∀ ms : List Match,
      (ClassifierPipeline.deduplicate ms).Pairwise (fun a b => ¬ overlaps a b))
    ∧ (∀ text : String,
      ((ClassifierPipeline.classify text).«matches»).Pairwise
        (fun a b => ¬ overlaps a b)) :=
  ⟨dedup_pairwise, fun text => dedup_pairwise (RegexDetector.detect text)⟩

/-- The overlapping pair refuting C2 as stated: the earlier-starting,
lower-confidence candidate survives the sweep, the later-starting,
higher-confidence one is dropped. -/
def cexLowConf : Match :=
  { entity_type := .EMAIL, value := [], start := 0, «end» := 10,
    confidence := mkRat 1 2, detector := "regex" }

/-- See `cexLowConf`. -/
def cexHighConf : Match :=
  { entity_type := .PHONE, value := [], start := 5, «end» := 15,
    confidence := mkRat 9 10, detector := "presidio" }

/-- C2, counterexample. `cexLowConf` and `cexHighConf` overlap and
`cexHighConf` has strictly higher confidence, yet deduplication keeps
exactly `cexLowConf`: the higher-confidence candidate of an overlapping
pair is not the survivor. -/
theorem dedup_keeps_lower_confidence_overlap :
    overlaps cexLowConf cexHighConf
    ∧ cexLowConf.confidence < cexHighConf.confidence
    ∧ ClassifierPipeline.deduplicate [cexLowConf, cexHighConf] = [cexLowConf] := by
  refine ⟨by decide, by decide, by decide⟩

/-- C2, amended. The deduplication step never keeps both candidates of an
overlapping pair; and among candidates sharing a start offset (which
overlap whenever both are well-formed, `start < end`), a strictly
lower-confidence candidate never survives — so any survivor among
equal-start candidates is the highest-confidence one.  (For overlapping
candidates with different starts, survival is decided by the greedy sweep
order — start ascending — not by confidence, as the counterexample
shows.) -/
theorem dedup_overlap_resolution (ms : List Match) (a b : Match) :
    (a ∈ ClassifierPipeline.deduplicate ms →
     b ∈ ClassifierPipeline.deduplicate ms → overlaps a b → a = b)
    ∧ (a.start < a.«end» → b.start < b.«end» →
       a ∈ ms → b ∈ ms → a.start = b.start → b.confidence < a.confidence →
       b ∉ ClassifierPipeline.deduplicate ms) := by
  constructor
  · exact fun ha hb hov => dedup_at_most_one_of_overlap ha hb hov
  · intro hwa hwb ha hb hstart hconf hmem
    have hsorted := List.sorted_insertionSort dedupKeyLE ms
    have hane : ¬ ms.isEmpty := by
      cases ms with
      | nil => exact absurd ha (List.not_mem_nil a)
      | cons x xs => simp
    have hdef : ClassifierPipeline.deduplicate ms =
        dedupLoop (List.insertionSort dedupKeyLE ms) (-1) := by
      unfold ClassifierPipeline.deduplicate
      rw [if_neg hane]
    have ha' : a ∈ List.insertionSort dedupKeyLE ms :=
      (List.perm_insertionSort dedupKeyLE ms).mem_iff.mpr ha
    have hamem : a ∈ ClassifierPipeline.deduplicate ms := by
      rw [hdef]
      exact dedupLoop_mem_better hsorted ha' (hdef ▸ hmem) hstart hconf
    have heq : a = b :=
      dedup_at_most_one_of_overlap hamem hmem
        (by unfold overlaps; omega)
    rw [heq] at hconf
    exact absurd hconf (lt_irrefl _)

/-- C2, witness for the amended theorem: a concrete equal-start pair where
the lower-confidence candidate is indeed dropped. -/
theorem dedup_overlap_resolution_witness :
    ({ entity_type := .SSN, value := [], start := 3, «end» := 8,
       confidence := mkRat 1 2, detector := "presidio" : Match}) ∉
      ClassifierPipeline.deduplicate
        [{ entity_type := .SSN, value := [], start := 3, «end» := 11,
           confidence := mkRat 3 4, detector := "regex" : Match},
         { entity_type := .SSN, value := [], start := 3, «end» := 8,
           confidence := mkRat 1 2, detector := "presidio" : Match}] :=
  (dedup_overlap_resolution
    [{ entity_type := .SSN, value := [], start := 3, «end» := 11,
       confidence := mkRat 3 4, detector := "regex" : Match},
     { entity_type := .SSN, value := [], start := 3, «end» := 8,
       confidence := mkRat 1 2, detector := "presidio" : Match}]
    { entity_type := .SSN, value := [], start := 3, «end» := 11,
      confidence := mkRat 3 4, detector := "regex" : Match}
    { entity_type := .SSN, value := [], start := 3, «end» := 8,
      confidence := mkRat 1 2, detector := "presidio" : Match}).2
    (by decide) (by decide) (by decide) (by decide) (by decide) (by decide)

/-! ## Claim theorems: encryption round-trip (C3) -/

/-- C3, counterexample. The empty string encrypts to the empty ciphertext
(crypto.py line 137), which `decrypt` returns as `""` under *any* key
(crypto.py line 149) — so decrypting a ciphertext produced under key `0`
with the different key `1` does not raise. -/
theorem decrypt_wrong_key_empty_no_error :
    (0 : Nat) ≠ 1
    ∧ Encryptor.decrypt 1 (Encryptor.encrypt 0 "") = Except.ok "" := by
  exact ⟨by decide, rfl⟩

/-- C3, amended. Encrypt-then-decrypt under the same key returns the
original string exactly (empty and multibyte strings included); decrypting
the ciphertext of a *nonempty* string with a different key raises the
invalid-token error; and in every case a non-raising decryption of a
ciphertext returns the original plaintext, never a different one.  (The
empty string is the one exception to "a different key raises": its
ciphertext is the empty string, which decrypts to `""` under any key.) -/
theorem encryptor_round_trip (k1 k2 : Nat) (s : String) :
    Encryptor.decrypt k1 (Encryptor.encrypt k1 s) = Except.ok s
    ∧ (s ≠ "" → k2 ≠ k1 →
        Encryptor.decrypt k2 (Encryptor.encrypt k1 s) =
          Except.error CryptoError.invalidToken)
    ∧ (∀ t : String,
        Encryptor.decrypt k2 (Encryptor.encrypt k1 s) = Except.ok t → t = s) := by
  refine ⟨?_, ?_, ?_⟩
  · by_cases hs : s = ""
    · subst hs
      simp [Encryptor.encrypt, Encryptor.decrypt]
    · simp [Encryptor.encrypt, Encryptor.decrypt, fernetEncrypt, fernetDecrypt, hs]
  · intro hs hk
    simp [Encryptor.encrypt, Encryptor.decrypt, fernetEncrypt, fernetDecrypt, hs,
      Ne.symm hk]
  · intro t ht
    by_cases hs : s = ""
    · subst hs
      simp [Encryptor.encrypt, Encryptor.decrypt] at ht
      exact ht.symm
    · simp [Encryptor.encrypt, Encryptor.decrypt, fernetEncrypt, fernetDecrypt, hs] at ht
      by_cases hk : k1 = k2
      · simp [hk] at ht
        exact ht.symm
      · simp [hk] at ht

/-- C3, witness: concrete round-trip under key 0 and failed decryption
under key 1 for the plaintext "ab". -/
theorem encryptor_round_trip_witness :
    Encryptor.decrypt 0 (Encryptor.encrypt 0 "ab") = Except.ok "ab"
    ∧ Encryptor.decrypt 1 (Encryptor.encrypt 0 "ab") =
        Except.error CryptoError.invalidToken :=
  ⟨(encryptor_round_trip 0 1 "ab").1,
   (encryptor_round_trip 0 1 "ab").2.1 (by decide) (by decide)⟩

/-! ## Claim theorems: Luhn validator (C4) -/

/-- The spec's per-digit rule: a doubled digit contributes the digit sum of
its product when the product exceeds 9, else the product itself. -/
def luhnDouble (d : Nat) : Nat :=
  if 2 * d > 9 then 2 * d / 10 + 2 * d % 10 else 2 * d

/-- The spec's checksum walk: digits indexed from the rightmost (index 0),
every second digit counting from the rightmost (odd index) doubled. -/
def luhnSpecGo : List Nat → Nat → Nat
  | [], _ => 0
  | d :: rest, i => (if i % 2 = 1 then luhnDouble d else d) + luhnSpecGo rest (i + 1)

/-- The Luhn checksum as the specification words it. -/
def luhnSpecSum (ds : List Nat) : Nat :=
  luhnSpecGo ds.reverse 0

theorem everyOther_cons_drop (x : Nat) (l : List Nat) :
    everyOther (x :: l) = x :: everyOther (l.drop 1) := by
  cases l <;> rfl

theorem luhnDouble_eq_divmod (d : Nat) :
    luhnDouble d = d * 2 / 10 + d * 2 % 10 := by
  unfold luhnDouble
  split <;> omega

/-- The indexed spec walk splits into the two alternating sublists the code
extracts with `digits[-1::-2]` and `digits[-2::-2]`. -/
theorem luhnSpecGo_even_odd : ∀ (l : List Nat) (i : Nat),
    luhnSpecGo l (2 * i) =
      (everyOther l).sum + ((everyOther (l.drop 1)).map luhnDouble).sum
    ∧ luhnSpecGo l (2 * i + 1) =
      ((everyOther l).map luhnDouble).sum + (everyOther (l.drop 1)).sum
  | [], i => by simp [luhnSpecGo, everyOther]
  | [a], i => by
    have h0 : (2 * i) % 2 = 0 := by omega
    have h1 : (2 * i + 1) % 2 = 1 := by omega
    simp [luhnSpecGo, everyOther, h0, h1]
  | a :: b :: rest, i => by
    have IH := luhnSpecGo_even_odd rest (i + 1)
    have h0 : (2 * i) % 2 = 0 := by omega
    have h1 : (2 * i + 1) % 2 = 1 := by omega
    have h2 : (2 * i + 1 + 1) % 2 = 0 := by omega
    have e3 : everyOther (b :: rest) = b :: everyOther (rest.drop 1) :=
      everyOther_cons_drop b rest
    have ha : 2 * i + 1 + 1 = 2 * (i + 1) := by omega
    have hb : 2 * (i + 1) + 1 = 2 * i + 1 + 1 + 1 := by omega
    constructor
    · show (if (2 * i) % 2 = 1 then luhnDouble a else a) +
        ((if (2 * i + 1) % 2 = 1 then luhnDouble b else b) +
          luhnSpecGo rest (2 * i + 1 + 1)) = _
      rw [if_neg (by omega : ¬ (2 * i) % 2 = 1),
        if_pos (by omega : (2 * i + 1) % 2 = 1), ha]
      simp only [everyOther, List.drop_succ_cons, List.drop_zero, e3,
        List.sum_cons, List.map_cons, IH.1]
      omega
    · show (if (2 * i + 1) % 2 = 1 then luhnDouble a else a) +
        ((if (2 * i + 1 + 1) % 2 = 1 then luhnDouble b else b) +
          luhnSpecGo rest (2 * i + 1 + 1 + 1)) = _
      rw [if_pos (by omega : (2 * i + 1) % 2 = 1),
        if_neg (by omega : ¬ (2 * i + 1 + 1) % 2 = 1), ← hb]
      simp only [everyOther, List.drop_succ_cons, List.drop_zero, e3,
        List.sum_cons, List.map_cons, IH.2]
      omega

/-- C4. `luhn_check` first reduces the input to its digits, rejects digit
counts below 13 or above 19, and otherwise accepts exactly when the
spec's checksum (double every second digit counting from the rightmost,
summing the digits of products greater than 9) is divisible by 10; it
accepts the three canonical test numbers and rejects every single-digit
alteration of each of them. -/
theorem luhn_check_correct :
    (∀ v : String,
      luhn_check v = true ↔
        (13 ≤ (pyDigits v).length ∧ (pyDigits v).length ≤ 19
          ∧ luhnSpecSum (pyDigits v) % 10 = 0))
    ∧ luhn_check "4111111111111111" = true
    ∧ luhn_check "5500000000000004" = true
    ∧ luhn_check "378282246310005" = true
    ∧ (∀ s ∈ ["4111111111111111", "5500000000000004", "378282246310005"],
        ∀ i, i < s.length → ∀ c ∈ "0123456789".data, c ≠ s.data.getD i ' ' →
          luhn_check (String.mk (s.data.set i c)) = false) := by
  refine ⟨?_, by decide, by decide, by decide, by decide⟩
  intro v
  unfold luhn_check
  have hdm : (fun d => d * 2 / 10 + d * 2 % 10) = luhnDouble :=
    funext (fun d => (luhnDouble_eq_divmod d).symm)
  have hspec : luhnSpecSum (pyDigits v) =
      (everyOther (pyDigits v).reverse).sum +
        ((everyOther ((pyDigits v).reverse.drop 1)).map luhnDouble).sum := by
    have := (luhnSpecGo_even_odd (pyDigits v).reverse 0).1
    simpa [luhnSpecSum] using this
  by_cases hlow : (pyDigits v).length < 13
  · simp only [hlow, decide_True, Bool.true_or, if_true]
    constructor
    · intro h; exact absurd h (by simp)
    · intro h; omega
  · by_cases hhigh : (pyDigits v).length > 19
    · simp only [hlow, hhigh, decide_True, decide_False, Bool.false_or, if_true]
      constructor
      · intro h; exact absurd h (by simp)
      · intro h; omega
    · simp only [hlow, hhigh, decide_False, Bool.or_self, Bool.false_eq_true, if_false]
      rw [hdm, decide_eq_true_iff, hspec]
      constructor
      · intro h; exact ⟨by omega, by omega, h⟩
      · intro h; exact h.2.2

/-- C4, witness: altering the first digit of the first test number makes
`luhn_check` reject. -/
theorem luhn_check_correct_witness :
    luhn_check (String.mk ("4111111111111111".data.set 0 '5')) = false :=
  luhn_check_correct.2.2.2.2 "4111111111111111" (by decide) 0 (by decide)
    '5' (by decide) (by decide)

/-! ## Claim theorems: identity-number validator (C5) -/

/-- Every entry of `pyDigits` is a decimal digit value. -/
theorem pyDigits_lt_ten (v : String) : ∀ d ∈ pyDigits v, d < 10 := by
  intro d hd
  unfold pyDigits at hd
  obtain ⟨c, hc, rfl⟩ := List.mem_map.mp hd
  have hdig : c.isDigit = true := (List.mem_filter.mp hc).2
  simp only [Char.isDigit, Bool.and_eq_true, decide_eq_true_eq] at hdig
  have h2 : c.val.toNat ≤ ('9' : Char).val.toNat := hdig.2
  have h9 : ('9' : Char).val.toNat = 57 := rfl
  unfold Char.toNat
  omega

theorem digitsVal_foldl_lt :
    ∀ (l : List Nat) (acc : Nat), (∀ d ∈ l, d < 10) →
      List.foldl (fun acc d => 10 * acc + d) acc l < (acc + 1) * 10 ^ l.length
  | [], acc, _ => by simp
  | d :: l, acc, h => by
    have ih := digitsVal_foldl_lt l (10 * acc + d)
      (fun x hx => h x (List.mem_cons_of_mem d hx))
    have hd : d < 10 := h d (List.mem_cons_self d l)
    calc List.foldl (fun acc d => 10 * acc + d) acc (d :: l)
        = List.foldl (fun acc d => 10 * acc + d) (10 * acc + d) l := rfl
      _ < (10 * acc + d + 1) * 10 ^ l.length := ih
      _ ≤ ((acc + 1) * 10) * 10 ^ l.length :=
          Nat.mul_le_mul_right _ (by omega)
      _ = (acc + 1) * 10 ^ (d :: l).length := by
          rw [List.length_cons, pow_succ]; ring

/-- A string of at most `n` digits denotes a value below `10 ^ n`. -/
theorem digitsVal_lt (l : List Nat) (h : ∀ d ∈ l, d < 10) :
    digitsVal l < 10 ^ l.length := by
  have := digitsVal_foldl_lt l 0 h
  simpa [digitsVal] using this

/-- C5. On every candidate whose digit string has exactly 9 digits,
`validate_ssn` accepts iff none of the rejection rules fires: area segment
000, 666 or in 900-999, group segment 00, serial segment 0000; any other
digit count is rejected outright. -/
theorem validate_ssn_correct (v : String) :
    ((pyDigits v).length = 9 →
      (validate_ssn v = true ↔
        ¬(digitsVal ((pyDigits v).take 3) = 0
          ∨ digitsVal ((pyDigits v).take 3) = 666
          ∨ (900 ≤ digitsVal ((pyDigits v).take 3)
              ∧ digitsVal ((pyDigits v).take 3) ≤ 999)
          ∨ digitsVal (((pyDigits v).drop 3).take 2) = 0
          ∨ digitsVal ((pyDigits v).drop 5) = 0)))
    ∧ ((pyDigits v).length ≠ 9 → validate_ssn v = false) := by
  have hb := pyDigits_lt_ten v
  constructor
  · intro hlen
    have harea : digitsVal ((pyDigits v).take 3) < 1000 := by
      have hl3 : ((pyDigits v).take 3).length = 3 := by
        rw [List.length_take]; omega
      have := digitsVal_lt ((pyDigits v).take 3)
        (fun d hd => hb d (List.mem_of_mem_take hd))
      rw [hl3] at this
      exact this
    unfold validate_ssn
    rw [if_neg (by omega)]
    by_cases hA : digitsVal ((pyDigits v).take 3) = 0
        || digitsVal ((pyDigits v).take 3) = 666
        || digitsVal ((pyDigits v).take 3) ≥ 900
    · rw [if_pos hA]
      simp only [Bool.or_eq_true, decide_eq_true_eq] at hA
      simp only [Bool.false_eq_true, false_iff, not_not]
      omega
    · rw [if_neg hA]
      simp only [Bool.or_eq_true, decide_eq_true_eq, not_or] at hA
      by_cases hB : digitsVal (((pyDigits v).drop 3).take 2) = 0
      · rw [if_pos (by simpa using hB)]
        simp only [Bool.false_eq_true, false_iff, not_not]
        omega
      · rw [if_neg (by simpa using hB)]
        by_cases hC : digitsVal ((pyDigits v).drop 5) = 0
        · rw [if_pos (by simpa using hC)]
          simp only [Bool.false_eq_true, false_iff, not_not]
          omega
        · rw [if_neg (by simpa using hC)]
          simp only [true_iff]
          omega
  · intro hlen
    unfold validate_ssn
    rw [if_pos (by omega)]

/-- C5, witness: the well-formed identity number 078-05-1120 is accepted. -/
theorem validate_ssn_correct_witness : validate_ssn "078-05-1120" = true :=
  ((validate_ssn_correct "078-05-1120").1 (by decide)).mpr (by decide)

/-! ## Claim theorems: label recommendation (C6) -/

theorem pyMax_mem : ∀ {l : List ℚ}, l ≠ [] → pyMax l ∈ l
  | [], h => absurd rfl h
  | [a], _ => by simp [pyMax]
  | a :: b :: rest, _ => by
    have ih := pyMax_mem (l := b :: rest) (by simp)
    unfold pyMax
    rcases max_choice a (pyMax (b :: rest)) with h | h <;> rw [h]
    · exact List.mem_cons_self a _
    · exact List.mem_cons_of_mem a ih

theorem pyMax_ge : ∀ {l : List ℚ} {x : ℚ}, x ∈ l → x ≤ pyMax l
  | [], x, h => absurd h (List.not_mem_nil x)
  | [a], x, h => by
    rw [List.mem_singleton] at h
    subst h
    exact le_of_eq rfl
  | a :: b :: rest, x, h => by
    unfold pyMax
    rcases List.mem_cons.mp h with rfl | h'
    · exact le_max_left x _
    · exact le_trans (pyMax_ge h') (le_max_right a _)

/-- C6. `_recommend_label` is computed only from the non-test matches: it
is `None` when none remain, and otherwise it depends exactly on whether a
real match has a high-sensitivity entity type and on the greatest real
confidence `c`: HIGHLY_CONFIDENTIAL for high sensitivity with `c ≥ 0.85`,
CONFIDENTIAL for high sensitivity below that, INTERNAL for `c ≥ 0.70`
without high sensitivity, and PUBLIC otherwise. -/
theorem recommend_label_correct (ms : List Match) :
    (ms.filter (fun m => !m.is_test_data) = [] →
      ClassifierPipeline.recommend_label ms = none)
    ∧ (∀ c : ℚ,
        c ∈ (ms.filter (fun m => !m.is_test_data)).map (fun m => m.confidence) →
        (∀ x ∈ (ms.filter (fun m => !m.is_test_data)).map (fun m => m.confidence),
          x ≤ c) →
        ((∃ m ∈ ms.filter (fun m => !m.is_test_data),
            m.entity_type ∈ HIGH_SENSITIVITY_TYPES) → mkRat 85 100 ≤ c →
          ClassifierPipeline.recommend_label ms =
            some LabelRecommendation.HIGHLY_CONFIDENTIAL)
        ∧ ((∃ m ∈ ms.filter (fun m => !m.is_test_data),
            m.entity_type ∈ HIGH_SENSITIVITY_TYPES) → ¬ mkRat 85 100 ≤ c →
          ClassifierPipeline.recommend_label ms =
            some LabelRecommendation.CONFIDENTIAL)
        ∧ (¬ (∃ m ∈ ms.filter (fun m => !m.is_test_data),
            m.entity_type ∈ HIGH_SENSITIVITY_TYPES) → mkRat 70 100 ≤ c →
          ClassifierPipeline.recommend_label ms =
            some LabelRecommendation.INTERNAL)
        ∧ (¬ (∃ m ∈ ms.filter (fun m => !m.is_test_data),
            m.entity_type ∈ HIGH_SENSITIVITY_TYPES) → ¬ mkRat 70 100 ≤ c →
          ClassifierPipeline.recommend_label ms =
            some LabelRecommendation.PUBLIC)) := by
  constructor
  · intro hreal
    unfold ClassifierPipeline.recommend_label
    by_cases hms : ms.isEmpty
    · rw [if_pos hms]
    · rw [if_neg hms, if_pos (by simp [hreal])]
  · intro c hc hmax
    have hne : ms.filter (fun m => !m.is_test_data) ≠ [] := by
      intro h
      rw [h] at hc
      exact absurd hc (List.not_mem_nil c)
    have hmsne : ms.isEmpty = false := by
      cases ms with
      | nil => exact absurd rfl hne
      | cons x xs => rfl
    have hrb : (ms.filter (fun m => !m.is_test_data)).isEmpty = false := by
      cases hfil : ms.filter (fun m => !m.is_test_data) with
      | nil => exact absurd hfil hne
      | cons y ys => rfl
    have hceq : pyMax ((ms.filter (fun m => !m.is_test_data)).map
        (fun m => m.confidence)) = c := by
      have h1 : ((ms.filter (fun m => !m.is_test_data)).map
          (fun m => m.confidence)) ≠ [] := by
        simpa using hne
      exact le_antisymm (hmax _ (pyMax_mem h1)) (pyMax_ge hc)
    have hhs : (ms.filter (fun m => !m.is_test_data)).any
        (fun m => HIGH_SENSITIVITY_TYPES.contains m.entity_type) = true ↔
        (∃ m ∈ ms.filter (fun m => !m.is_test_data),
          m.entity_type ∈ HIGH_SENSITIVITY_TYPES) := by
      simp [List.any_eq_true, List.mem_filter, and_assoc]
    refine ⟨?_, ?_, ?_, ?_⟩
    · intro hhigh hthr
      have hhb := hhs.mpr hhigh
      have hdec : decide (c ≥ mkRat 85 100) = true := decide_eq_true hthr
      unfold ClassifierPipeline.recommend_label
      simp only [hmsne, hrb, Bool.false_eq_true, if_false, hceq, hhb, hdec,
        Bool.and_self, if_true]
    · intro hhigh hthr
      have hhb := hhs.mpr hhigh
      have hdec : decide (c ≥ mkRat 85 100) = false :=
        decide_eq_false hthr
      unfold ClassifierPipeline.recommend_label
      simp only [hmsne, hrb, Bool.false_eq_true, if_false, hceq, hhb, hdec,
        Bool.and_false, if_true]
    · intro hhigh hthr
      have hhb : (ms.filter (fun m => !m.is_test_data)).any
          (fun m => HIGH_SENSITIVITY_TYPES.contains m.entity_type) = false := by
        rw [← Bool.not_eq_true]
        intro h
        exact hhigh (hhs.mp h)
      unfold ClassifierPipeline.recommend_label
      simp only [hmsne, hrb, Bool.false_eq_true, if_false, hceq, hhb,
        Bool.false_and, if_true, if_pos (show c ≥ mkRat 70 100 from hthr)]
    · intro hhigh hthr
      have hhb : (ms.filter (fun m => !m.is_test_data)).any
          (fun m => HIGH_SENSITIVITY_TYPES.contains m.entity_type) = false := by
        rw [← Bool.not_eq_true]
        intro h
        exact hhigh (hhs.mp h)
      unfold ClassifierPipeline.recommend_label
      simp only [hmsne, hrb, Bool.false_eq_true, if_false, hceq, hhb,
        Bool.false_and, if_true, if_neg (show ¬ c ≥ mkRat 70 100 from hthr)]

/-- C6, witness: a single real identity-number match at confidence 0.75
yields CONFIDENTIAL. -/
theorem recommend_label_correct_witness :
    ClassifierPipeline.recommend_label
      [{ entity_type := .SSN, value := [], start := 0, «end» := 9,
         confidence := mkRat 3 4, detector := "regex" : Match}] =
      some LabelRecommendation.CONFIDENTIAL :=
  ((recommend_label_correct
      [{ entity_type := .SSN, value := [], start := 0, «end» := 9,
         confidence := mkRat 3 4, detector := "regex" : Match}]).2
    (mkRat 3 4) (by decide) (by decide)).2.1 (by decide) (by decide)

/-! ## Claim theorems: redaction (C8) -/

/-- C8. `redacted_value` preserves the value's length; values of length at
most 4 are fully masked; the interior (everything but the first two and
last two characters) is always the mask character; and only for values
longer than 4 are the first two and last two characters carried through —
so no character beyond those four is ever disclosed. -/
theorem redacted_value_correct (m : Match) :
    m.redacted_value.length = m.value.length
    ∧ (m.value.length ≤ 4 →
        m.redacted_value = List.replicate m.value.length '*')
    ∧ (∀ i, 2 ≤ i → i < m.value.length - 2 →
        m.redacted_value.getD i ' ' = '*')
    ∧ (m.value.length ≤ 4 → ∀ i, i < m.value.length →
        m.redacted_value.getD i ' ' = '*')
    ∧ (4 < m.value.length → ∀ i, i < m.value.length →
        (i < 2 ∨ m.value.length - 2 ≤ i) →
        m.redacted_value.getD i ' ' = m.value.getD i ' ') := by
  unfold Match.redacted_value
  by_cases h4 : m.value.length ≤ 4
  · rw [if_pos h4]
    refine ⟨by simp, fun _ => rfl, ?_, ?_, ?_⟩
    · intro i h2 hlt
      exfalso
      omega
    · intro _ i hi
      rw [List.getD_eq_getElem _ _ (by simpa using hi)]
      simp
    · intro h
      exact absurd h (by omega)
  · rw [if_neg h4]
    have hn : 4 < m.value.length := by omega
    have hlen : (m.value.take 2 ++ (List.replicate (m.value.length - 4) '*'
        ++ m.value.drop (m.value.length - 2))).length = m.value.length := by
      simp [List.length_take, List.length_drop]
      omega
    have htk : (m.value.take 2).length = 2 := by
      simp [List.length_take]
      omega
    refine ⟨by simpa [List.append_assoc] using hlen, ?_, ?_, ?_, ?_⟩
    · intro h
      exact absurd h (by omega)
    · intro i h2 hlt
      rw [List.append_assoc, List.getD_append_right _ _ _ _ (by omega : (m.value.take 2).length ≤ i),
        htk, List.getD_append _ _ _ _ (by simp; omega)]
      rw [List.getD_eq_getElem _ _ (by simp; omega)]
      simp
    · intro h
      exact absurd h (by omega)
    · intro _ i hi hside
      rcases hside with hlt2 | hge
      · rw [List.append_assoc, List.getD_append _ _ _ _ (by omega : i < (m.value.take 2).length)]
        rw [List.getD_eq_getElem _ _ (by rw [htk]; exact hlt2),
          List.getD_eq_getElem _ _ (by omega)]
        simp [List.getElem_take]
      · rw [List.append_assoc, List.getD_append_right _ _ _ _ (by omega : (m.value.take 2).length ≤ i),
          htk, List.getD_append_right _ _ _ _ (by simp; omega)]
        rw [List.length_replicate]
        have harith : i - 2 - (m.value.length - 4) = i - (m.value.length - 2) := by
          omega
        rw [harith]
        rw [List.getD_eq_getElem _ _ (by simp [List.length_drop]; omega),
          List.getD_eq_getElem _ _ (by omega)]
        simp only [List.getElem_drop]
        congr 1
        omega

/-- C8, witness: in the 7-character value "1234567" the third character is
masked — concretely, position 3 of the redaction is the mask. -/
theorem redacted_value_correct_witness :
    ({ entity_type := .PHONE, value := "1234567".data, start := 0, «end» := 7,
       confidence := mkRat 1 2, detector := "regex" : Match}).redacted_value.getD 3 ' '
      = '*' :=
  (redacted_value_correct
    { entity_type := .PHONE, value := "1234567".data, start := 0, «end» := 7,
      confidence := mkRat 1 2, detector := "regex" : Match}).2.2.1 3
    (by decide) (by decide)

/-! ## Claim theorems: test-data whitelist and scenario (C9) -/

/-- The single match the pipeline finds in "Example SSN: 123-45-6789". -/
def scenarioMatch : Match :=
  { entity_type := .SSN, value := "123-45-6789".data,
    start := 13, «end» := 24, confidence := mkRat 75 100,
    detector := "regex", context := "Example SSN: 123-45-6789".data,
    is_test_data := true }

/-- C9. A value is flagged as test data exactly when, after lowercasing and
separator removal, it equals one of the placeholder values listed for its
pattern — a whitelist, not a heuristic.  And on the input
"Example SSN: 123-45-6789" the pipeline returns exactly one match, flagged
`is_test_data`, with no label recommendation. -/
theorem is_test_data_whitelist_scenario :
    (∀ (value : List Char) (tps : List (List Char)),
      RegexDetector.is_test_data value tps = true ↔
        ∃ t ∈ tps, normalizeTestValue value = normalizeTestValue t)
    ∧ (∃ m : Match,
        ClassifierPipeline.classify "Example SSN: 123-45-6789" =
          { «matches» := [m], label_recommendation := none }
        ∧ m.is_test_data = true) := by
  constructor
  · intro value tps
    simp [RegexDetector.is_test_data, List.any_eq_true]
  · refine ⟨scenarioMatch, ?_, rfl⟩
    decide

/-! ## Claim theorems: audit pairing of store reads (C7) -/

/-- A one-scan store state used to evaluate `get_scan`. -/
def scanRowEx : ScanRow :=
  { scan_id := "s1", started_at := "2026-01-01", total_files := 1,
    files_with_matches := 0, files_errored := 0, total_matches := 0 }

/-- See `scanRowEx`. -/
def dbEx : FindingsDatabase := { scans := [scanRowEx] }

/-- C7 (refuted by the code). `list_scans`, `get_files` and
`get_findings_by_file` return the store state unchanged — they append *no*
audit entry at all, for any state; and `get_scan` on a present scan returns
one record while its single audit entry carries `record_count = 0`.  Each
conjunct contradicts "exactly one Audit Log entry ... with an accurate
record_count". -/
theorem findings_reads_not_audited :
    (∀ (db : FindingsDatabase) (limit : Nat), (db.list_scans limit).2 = db)
    ∧ (∀ (db : FindingsDatabase) (sid : String) (owm : Bool),
        (db.get_files sid owm).2 = db)
    ∧ (∀ (db : FindingsDatabase) (p : String),
        (db.get_findings_by_file p).2 = db)
    ∧ (dbEx.get_scan "s1").1 = some scanRowEx
    ∧ (dbEx.get_scan "s1").2.audit =
        [{ action := "finding_read", record_count := 0, scan_id := some "s1" }] := by
  refine ⟨fun db limit => rfl, fun db sid owm => rfl, fun db p => rfl, ?_, ?_⟩
  · decide
  · decide

/-! ## Claim theorems: computed match totals (C10) -/

/-- A scan with one file holding a single test-data match. -/
def scanEx10 : ScanResult :=
  { scan_id := "s1", started_at := "t0",
    files := [
      { path := "a.txt", source := "filesystem", size_bytes := 1,
        «matches» := [
          { entity_type := .SSN, value := "123-45-6789".data, start := 0,
            «end» := 11, confidence := mkRat 3 4, detector := "regex",
            is_test_data := true }] }] }

/-- C10. `total_matches` counts, over all files, exactly the matches whose
`is_test_data` flag is false; and it can be strictly smaller than the
number of match records `store_scan` persists for the scan, since test-data
matches are stored but not counted. -/
theorem total_matches_counts_real_only :
    (∀ s : ScanResult,
      s.total_matches =
        (s.files.map (fun f => f.«matches».countP (fun m => !m.is_test_data))).sum)
    ∧ scanEx10.total_matches <
        ((FindingsDatabase.store_scan {} scanEx10).2.«matches»).length := by
  constructor
  · intro s
    simp [ScanResult.total_matches, FileResult.real_matches,
      List.countP_eq_length_filter]
  · decide

end ScrubIQ
